import Mathlib

/-!
Verification development for the session-registry and connection-fan-out
protocol of `src/app.py`, a Connect Four relay server.

The embedding follows the source closely:

* `handlerDispatch` embeds `handler` (lines 158-177): it classifies the opening
  message into start / join / watch, or raises on a malformed or wrongly
  tagged message.
* `startSetup` and `startCleanup` embed `start` (lines 84-115): minting and
  registering the two tokens, sending the `init` event, and the `finally`
  block `del JOIN[join_key]`.
* `joinAttempt` / `watchAttempt` embed the lookup-attach-replay phase of
  `join` (lines 117-132) and `watch` (lines 136-154); `connCleanup` embeds
  their `finally` blocks `connected.remove(websocket)`.
* `playStep` embeds one iteration of the `play` loop (lines 47-82).
* The `RelayState` / `Step` small-step system models the cooperative
  (single-threaded asyncio) interleaving of replay sends, live moves and
  attach/detach, at the granularity of the source's await points: the
  `connected.add` plus `game.moves.copy()` pair is atomic (no await between
  them), each replay send is a yield point, and an accepted move's append
  plus `websockets.broadcast` (a synchronous call) is atomic.

Python's shared mutable `(game, connected)` tuple, reachable from both the
`JOIN` and `WATCH` dicts, is modelled by an indirection through session ids:
both token namespaces map to a `SessId`, and a single store maps ids to the
session state, so a mutation through one alias is visible through the other.
-/

namespace App

/-- The two fixed player identities, `PLAYER1` and `PLAYER2` in the source. -/
inductive Player
  | one
  | two
deriving DecidableEq, Repr

/-- The opposite identity. -/
def Player.other : Player → Player
  | .one => .two
  | .two => .one

/-- A move record `(player, column, row)` as stored in the Move Log. -/
structure Move where
  player : Player
  column : Nat
  row : Nat
deriving DecidableEq, Repr

/-- Outbound wire events of `src/app.py`. -/
inductive Event
  | init (join : String) (watch : String)
  | play (player : Player) (column : Nat) (row : Nat)
  | win (player : Player)
  | error (message : String)
deriving DecidableEq, Repr

/-- A connection handle. -/
abbrev Conn := Nat

/-- A session identifier, standing for Python object identity of the shared
`(game, connected)` pair. -/
abbrev SessId := Nat

/-- One delivery: which connection receives which event. -/
abbrev Send := Conn × Event

/-- The observable game state `src/app.py` reads from the rules engine:
the Move Log `game.moves` and the `game.winner` query. -/
structure Game where
  moves : List Move
  winner : Option Player
deriving DecidableEq, Repr

/-- A fresh game, as built by `Connect4()`: empty Move Log, no winner. -/
def Connect4.new : Game := ⟨[], none⟩

/-- The identity whose turn it is: `PLAYER1` moves first, then turns
alternate. -/
def toMove (moves : List Move) : Player :=
  match moves.getLast? with
  | none => Player.one
  | some m => m.player.other

/-- Modelled from the spec: the Rules Engine (`connect4.Connect4.play`,
imported by `src/app.py` but not present under `src/`).  Per the spec it is a
pure game-state component: `attempt` rejects a move when the game is already
over, it is not the submitting player's turn, or the column is full, and it
"translates any rules violation into a reported error without mutating the
Move Log"; on success it returns the authoritative row and appends
`(player, column, row)` to the Move Log.  Win detection is out of scope in
the spec, so it is a parameter `winCheck` run on the updated log. -/
def Connect4.play (winCheck : List Move → Option Player) (g : Game) (p : Player)
    (column : Nat) : Except String (Nat × Game) :=
  if g.winner.isSome then
    Except.error "Game is already over."
  else if p ≠ toMove g.moves then
    Except.error "It is not your turn."
  else
    let row := (g.moves.filter (fun m => m.column == column)).length
    if 6 ≤ row then
      Except.error "This slot is full."
    else
      let moves := g.moves ++ [⟨p, column, row⟩]
      Except.ok (row, ⟨moves, winCheck moves⟩)

/-- An inbound message after JSON parsing: its `type` tag and the fields the
source reads (`join`, `watch`, `column`); `none` means the key is absent. -/
structure InMsg where
  tag : String
  join : Option String := none
  watch : Option String := none
  column : Option Nat := none
deriving DecidableEq, Repr

/-- A raw inbound frame: either unparseable JSON or a parsed message. -/
inductive RawMsg
  | malformed
  | msg (m : InMsg)
deriving DecidableEq, Repr

/-- Whether the receive loop keeps running after a step, or an exception
propagates and the connection closes. -/
inductive LoopCtl
  | cont
  | raised
deriving DecidableEq, Repr

/-- `websockets.broadcast(connected, event)`: one copy of the event to every
member of the connection set. -/
def broadcast (connected : List Conn) (e : Event) : List Send :=
  connected.map (fun c => (c, e))

/-- One iteration of the `play` loop (lines 52-82 of `src/app.py`): parse the
message (the loop asserts the tag is `"play"` and reads `event["column"]`,
raising otherwise), submit the move to the rules engine, and either unicast
an `error` event and continue, or broadcast the `play` event followed by a
`win` event when `game.winner is not None`.  Returns the game after the step,
the deliveries it caused, and whether the loop continues. -/
def playStep (rules : Game → Player → Nat → Except String (Nat × Game))
    (game : Game) (player : Player) (connected : List Conn) (self : Conn)
    (raw : RawMsg) : Game × List Send × LoopCtl :=
  match raw with
  | .malformed => (game, [], .raised)
  | .msg m =>
    if m.tag = "play" then
      match m.column with
      | none => (game, [], .raised)
      | some column =>
        match rules game player column with
        | .error e => (game, [(self, Event.error e)], .cont)
        | .ok (row, g2) =>
          (g2,
           broadcast connected (Event.play player column row) ++
             (if g2.winner.isSome then broadcast connected (Event.win player) else []),
           .cont)
    else (game, [], .raised)

/-- Where the opening message routes the connection. -/
inductive DispatchResult
  | raised
  | doJoin (key : String)
  | doWatch (key : String)
  | doStart
deriving DecidableEq, Repr

/-- The `handler` dispatch (lines 163-177 of `src/app.py`): parse the opening
message, assert its tag is `"init"` (raising on a malformed frame or any
other tag), then route on the presence of a `join` or `watch` field.  The
second component is the deliveries the dispatch itself performs: none on any
path — in particular nothing is sent or broadcast when the assert raises. -/
def handlerDispatch (raw : RawMsg) : DispatchResult × List Send :=
  match raw with
  | .malformed => (.raised, [])
  | .msg m =>
    if m.tag = "init" then
      match m.join with
      | some key => (.doJoin key, [])
      | none =>
        match m.watch with
        | some key => (.doWatch key, [])
        | none => (.doStart, [])
    else (.raised, [])

/-- Association-list lookup, the model of a Python dict access. -/
def alookup {α β : Type} [DecidableEq α] : List (α × β) → α → Option β
  | [], _ => none
  | kv :: rest, k => if kv.1 = k then some kv.2 else alookup rest k

/-- Removal of a key, the model of Python `del d[k]`. -/
def eraseKey {α β : Type} [DecidableEq α] (l : List (α × β)) (k : α) :
    List (α × β) :=
  l.filter (fun kv => kv.1 != k)

/-- The per-session shared state: the game (rules engine plus Move Log) and
the set of connections receiving this game's broadcasts. -/
structure Session where
  game : Game
  connected : List Conn
deriving DecidableEq, Repr

/-- The process-wide registry: the `JOIN` and `WATCH` token namespaces, and
the session store standing for Python object identity (both namespaces alias
the same mutable session through its id). -/
structure Registry where
  join : List (String × SessId)
  watch : List (String × SessId)
  sessions : List (SessId × Session)
deriving DecidableEq, Repr

/-- Update the session stored under `sid`. -/
def setSession (l : List (SessId × Session)) (sid : SessId) (s : Session) :
    List (SessId × Session) :=
  l.map (fun kv => if kv.1 = sid then (sid, s) else kv)

/-- Resolve a join token to its session, `none` meaning `NotFound`. -/
def resolveJoin (r : Registry) (key : String) : Option Session :=
  (alookup r.join key).bind (fun sid => alookup r.sessions sid)

/-- Resolve a watch token to its session, `none` meaning `NotFound`. -/
def resolveWatch (r : Registry) (key : String) : Option Session :=
  (alookup r.watch key).bind (fun sid => alookup r.sessions sid)

/-- The connection set of session `sid`, empty when the id is unknown. -/
def connectedOf (r : Registry) (sid : SessId) : List Conn :=
  match alookup r.sessions sid with
  | none => []
  | some s => s.connected

/-- Python `set.add`: insert the connection if absent. -/
def addConn (l : List Conn) (c : Conn) : List Conn :=
  if c ∈ l then l else l ++ [c]

/-- The Move Log replay of `replay` (lines 27-45 of `src/app.py`): one `play`
event per logged move, in log order, all addressed to the one connection
being brought up to speed. -/
def replayEvents (ws : Conn) (moves : List Move) : List Send :=
  moves.map (fun m => (ws, Event.play m.player m.column m.row))

/-- Lines 92-111 of `start`: build a fresh `Connect4`, a connection set
holding only the first player, register the freshly minted join and watch
tokens in their namespaces, and send the single `init` event carrying both
tokens to the starting connection only. -/
def startSetup (r : Registry) (ws : Conn) (sid : SessId)
    (join_key : String) (watch_key : String) : Registry × List Send :=
  ({ join := (join_key, sid) :: r.join,
     watch := (watch_key, sid) :: r.watch,
     sessions := (sid, ⟨Connect4.new, [ws]⟩) :: r.sessions },
   [(ws, Event.init join_key watch_key)])

/-- The `finally` block of `start` (line 115 of `src/app.py`), run when the
first player's connection ends: `del JOIN[join_key]` — and nothing else. -/
def startCleanup (r : Registry) (join_key : String) : Registry :=
  { r with join := eraseKey r.join join_key }

/-- `connected.add(websocket)` performed through the registry alias: the
session `sid`, currently holding `sess`, gets `ws` inserted into its
connection set. -/
def attachConn (r : Registry) (sid : SessId) (sess : Session) (ws : Conn) :
    Registry :=
  { r with sessions :=
      setSession r.sessions sid { sess with connected := addConn sess.connected ws } }

/-- Lines 117-132 of `join`: look the token up in `JOIN` (on `KeyError` send
`error "Game not found."` and return, touching nothing), else add this
connection to the session's connection set, replay the Move Log to it alone,
and hand control to the `play` loop as `PLAYER2`.  Returns the registry after
the phase, the deliveries, and the session and role entered (`none` when the
handler returned at the lookup). -/
def joinAttempt (r : Registry) (ws : Conn) (key : String) :
    Registry × List Send × Option (SessId × Player) :=
  match alookup r.join key with
  | none => (r, [(ws, Event.error "Game not found.")], none)
  | some sid =>
    match alookup r.sessions sid with
    | none => (r, [(ws, Event.error "Game not found.")], none)
    | some sess =>
      (attachConn r sid sess ws, replayEvents ws sess.game.moves,
       some (sid, Player.two))

/-- Lines 136-154 of `watch`: the same resolution against the `WATCH`
namespace; on success attach, replay, and wait for the connection to close
(an observer sends no moves). -/
def watchAttempt (r : Registry) (ws : Conn) (key : String) :
    Registry × List Send × Option SessId :=
  match alookup r.watch key with
  | none => (r, [(ws, Event.error "Game not found.")], none)
  | some sid =>
    match alookup r.sessions sid with
    | none => (r, [(ws, Event.error "Game not found.")], none)
    | some sess =>
      (attachConn r sid sess ws, replayEvents ws sess.game.moves,
       some sid)

/-- The `finally` blocks of `join` and `watch` (lines 134 and 156):
`connected.remove(websocket)`, run on every exit path of those handlers. -/
def connCleanup (r : Registry) (sid : SessId) (ws : Conn) : Registry :=
  match alookup r.sessions sid with
  | none => r
  | some sess =>
    { r with sessions :=
        setSession r.sessions sid { sess with connected := sess.connected.erase ws } }

/-- The state of one session's fan-out, at the granularity of the event
loop's yield points: the Move Log, the connection set, the set of
connections ever attached, and per connection the play events received so
far and the replay snapshot still to be sent. -/
structure RelayState where
  log : List Move
  connected : List Conn
  seen : List Conn
  received : Conn → List Move
  pending : Conn → List Move

/-- A scheduler step of the cooperative event loop. -/
inductive Step
  | attach (c : Conn)
  | replaySend (c : Conn)
  | move (m : Move)
  | detach (c : Conn)
deriving DecidableEq, Repr

/-- Execute one step.  `attach` performs `connected.add` and the
`game.moves.copy()` of `replay` together (the source has no await between
them); `replaySend` delivers one snapshot entry (each `websocket.send` in
`replay` is a yield point); `move` appends an accepted move and broadcasts it
to the current connection set in one step (`game.play` plus the synchronous
`websockets.broadcast`); `detach` removes a connection from the set. -/
def stepRelay (s : RelayState) : Step → RelayState
  | .attach c =>
    { s with connected := addConn s.connected c,
             seen := addConn s.seen c,
             pending := fun x => if x = c then s.log else s.pending x }
  | .replaySend c =>
    match s.pending c with
    | [] => s
    | m :: rest =>
      { s with received := fun x => if x = c then s.received x ++ [m] else s.received x,
               pending := fun x => if x = c then rest else s.pending x }
  | .move m =>
    { s with log := s.log ++ [m],
             received := fun x => if x ∈ s.connected then s.received x ++ [m]
                                  else s.received x }
  | .detach c =>
    { s with connected := s.connected.erase c }

/-- A step is admissible: a connection attaches at most once. -/
def stepOkB (s : RelayState) : Step → Bool
  | .attach c => !(decide (c ∈ s.seen))
  | _ => true

/-- Well-formedness of a schedule from a state. -/
def wfSteps : RelayState → List Step → Bool
  | _, [] => true
  | s, st :: rest => stepOkB s st && wfSteps (stepRelay s st) rest

/-- The state right after `start` registered the game: empty log, the first
player attached, nothing pending. -/
def initRelay (first : Conn) : RelayState :=
  ⟨[], [first], [first], fun _ => [], fun _ => []⟩

/-- Run a schedule. -/
def execTrace (first : Conn) (tr : List Step) : RelayState :=
  List.foldl stepRelay (initRelay first) tr

/-- Every attached connection has been attached. -/
def ConnInv (s : RelayState) : Prop :=
  ∀ c, c ∈ s.connected → c ∈ s.seen

/-- A never-attached connection has received nothing and owes nothing. -/
def FreshInv (s : RelayState) : Prop :=
  ∀ c, c ∉ s.seen → s.received c = [] ∧ s.pending c = []

/-- For every attached connection, what it has received plus its outstanding
replay is a permutation of the Move Log. -/
def PermInv (s : RelayState) : Prop :=
  ∀ c, c ∈ s.connected → List.Perm (s.received c ++ s.pending c) s.log

/-- The conjunction of the fan-out invariants. -/
def RelayInv (s : RelayState) : Prop :=
  ConnInv s ∧ FreshInv s ∧ PermInv s

theorem mem_addConn {l : List Conn} {c x : Conn} :
    x ∈ addConn l c ↔ x ∈ l ∨ x = c := by
  unfold addConn
  by_cases hc : c ∈ l
  · rw [if_pos hc]
    constructor
    · exact fun h => Or.inl h
    · rintro (h | rfl)
      · exact h
      · exact hc
  · rw [if_neg hc]
    simp [List.mem_append]

theorem relayInv_init (first : Conn) : RelayInv (initRelay first) := by
  refine ⟨?_, ?_, ?_⟩
  · intro c hc; exact hc
  · intro c _; exact ⟨rfl, rfl⟩
  · intro c _; exact List.Perm.refl _

theorem relayInv_step (s : RelayState) (st : Step) (hinv : RelayInv s)
    (hok : stepOkB s st = true) : RelayInv (stepRelay s st) := by
  obtain ⟨hconn, hfresh, hperm⟩ := hinv
  cases st with
  | attach c =>
    have hc : c ∉ s.seen := by
      simpa [stepOkB] using hok
    refine ⟨?_, ?_, ?_⟩
    · intro x hx
      rcases mem_addConn.mp hx with h | rfl
      · exact mem_addConn.mpr (Or.inl (hconn x h))
      · exact mem_addConn.mpr (Or.inr rfl)
    · intro x hx
      have hxs : x ∉ s.seen := fun h => hx (mem_addConn.mpr (Or.inl h))
      have hxc : x ≠ c := fun h => hx (mem_addConn.mpr (Or.inr h))
      refine ⟨(hfresh x hxs).1, ?_⟩
      show (if x = c then s.log else s.pending x) = []
      rw [if_neg hxc]
      exact (hfresh x hxs).2
    · intro x hx
      show List.Perm (s.received x ++ (if x = c then s.log else s.pending x)) s.log
      rcases mem_addConn.mp hx with h | rfl
      · have hxc : x ≠ c := by
          rintro rfl; exact hc (hconn x h)
        rw [if_neg hxc]
        exact hperm x h
      · rw [if_pos rfl, (hfresh x hc).1, List.nil_append]
  | replaySend c =>
    rcases hpc : s.pending c with _ | ⟨m, rest⟩
    · simp only [stepRelay, hpc]
      exact ⟨hconn, hfresh, hperm⟩
    · simp only [stepRelay, hpc]
      refine ⟨hconn, ?_, ?_⟩
      · intro x hx
        have hxc : x ≠ c := by
          rintro rfl
          rw [(hfresh x hx).2] at hpc
          exact List.noConfusion hpc
        show (if x = c then s.received x ++ [m] else s.received x) = [] ∧
            (if x = c then rest else s.pending x) = []
        rw [if_neg hxc, if_neg hxc]
        exact hfresh x hx
      · intro x hx
        show List.Perm ((if x = c then s.received x ++ [m] else s.received x) ++
            (if x = c then rest else s.pending x)) s.log
        by_cases hxc : x = c
        · subst hxc
          rw [if_pos rfl, if_pos rfl, List.append_assoc]
          have h1 : s.received x ++ ([m] ++ rest) = s.received x ++ s.pending x := by
            rw [hpc]; rfl
          rw [h1]
          exact hperm x hx
        · rw [if_neg hxc, if_neg hxc]
          exact hperm x hx
  | move m =>
    refine ⟨hconn, ?_, ?_⟩
    · intro x hx
      have hxconn : x ∉ s.connected := fun h => hx (hconn x h)
      refine ⟨?_, (hfresh x hx).2⟩
      show (if x ∈ s.connected then s.received x ++ [m] else s.received x) = []
      rw [if_neg hxconn]
      exact (hfresh x hx).1
    · intro x hx
      have hx2 : x ∈ s.connected := hx
      show List.Perm ((if x ∈ s.connected then s.received x ++ [m] else s.received x) ++
          s.pending x) (s.log ++ [m])
      rw [if_pos hx2, List.append_assoc]
      have h2 : List.Perm ([m] ++ s.pending x) (s.pending x ++ [m]) :=
        List.perm_append_comm
      have h3 : List.Perm (s.received x ++ ([m] ++ s.pending x))
          (s.received x ++ (s.pending x ++ [m])) :=
        List.Perm.append_left _ h2
      refine h3.trans ?_
      have h4 : s.received x ++ (s.pending x ++ [m]) =
          s.received x ++ s.pending x ++ [m] := (List.append_assoc _ _ _).symm
      rw [h4]
      exact List.Perm.append_right _ (hperm x hx)
  | detach c =>
    refine ⟨?_, hfresh, ?_⟩
    · intro x hx
      exact hconn x (List.mem_of_mem_erase hx)
    · intro x hx
      exact hperm x (List.mem_of_mem_erase hx)


theorem relayInv_foldl (tr : List Step) :
    ∀ s : RelayState, RelayInv s → wfSteps s tr = true →
      RelayInv (List.foldl stepRelay s tr) := by
  induction tr with
  | nil => intro s hs _; simpa using hs
  | cons st rest ih =>
    intro s hs hwf
    simp only [wfSteps, Bool.and_eq_true] at hwf
    exact ih (stepRelay s st) (relayInv_step s st hs hwf.1) hwf.2

/-- `secrets.token_urlsafe(12)` draws this many random bytes per token. -/
def token_urlsafe_nbytes : Nat := 12

/-- Entropy, in bits, of one minted token. -/
def tokenEntropyBits : Nat := token_urlsafe_nbytes * 8

theorem alookup_eraseKey {α β : Type} [DecidableEq α] (l : List (α × β)) (k : α) :
    alookup (eraseKey l k) k = none := by
  induction l with
  | nil => rfl
  | cons kv rest ih =>
    by_cases h : kv.1 = k
    · simpa [eraseKey, List.filter_cons, h] using ih
    · simpa [eraseKey, List.filter_cons, h, alookup] using ih

theorem alookup_setSession (l : List (SessId × Session)) (sid : SessId)
    (s2 : Session) :
    alookup (setSession l sid s2) sid = (alookup l sid).map (fun _ => s2) := by
  induction l with
  | nil => rfl
  | cons kv rest ih =>
    by_cases h : kv.1 = sid
    · simp [setSession, alookup, h]
    · simp only [setSession, List.map_cons, if_neg h]
      simp only [setSession] at ih
      simp [alookup, h, ih]

theorem connectedOf_attachConn (r : Registry) (sid : SessId) (sess : Session)
    (ws : Conn) (h : alookup r.sessions sid = some sess) :
    connectedOf (attachConn r sid sess ws) sid = addConn sess.connected ws := by
  simp [connectedOf, attachConn, alookup_setSession, h]

/-- A demonstration session holding one logged move and one connection. -/
def demoSess : Session := ⟨⟨[⟨Player.one, 3, 0⟩], none⟩, [5]⟩

/-- A demonstration registry with the join token `J1` and the watch token
`W1` both minted for session `0`. -/
def demoReg : Registry := ⟨[("J1", 0)], [("W1", 0)], [(0, demoSess)]⟩

/-- A schedule in which connection `1` attaches while one move is logged and
a second move is accepted during its replay. -/
def c2trace : List Step :=
  [Step.move ⟨Player.one, 3, 0⟩, Step.attach 1, Step.move ⟨Player.two, 3, 1⟩,
   Step.replaySend 1]

/-- Claim C1.  What the code actually does at the failing input, contradicting
the claim: starting a game from connection `0` registers join token `J1` and
watch token `W1`; when the first player's connection ends, the `finally`
block of `start` removes only the `JOIN` entry, so a later resolve of the
join token fails but the watch token still resolves to the session — the
claim (and the spec's registry invariant) says both tokens are unregistered
and every subsequent resolve of either fails. -/
theorem C1_code_behavior :
    alookup (startCleanup (startSetup ⟨[], [], []⟩ 0 0 "J1" "W1").1 "J1").join "J1" =
      none ∧
    resolveWatch (startCleanup (startSetup ⟨[], [], []⟩ 0 0 "J1" "W1").1 "J1") "W1" =
      some ⟨Connect4.new, [0]⟩ ∧
    (startCleanup (startSetup ⟨[], [], []⟩ 0 0 "J1" "W1").1 "J1").watch =
      [("W1", 0)] := by
  decide

/-- Claim C2, as stated, is false on the code: in the schedule `c2trace`,
connection `1` attaches before the last accepted move, stays attached, and
its replay runs to completion, yet it receives the two play events in the
opposite of the order the moves were accepted (the live broadcast of the
second move lands during its replay of the first) — exactly the reordering
the source's own comment in `replay` describes. -/
theorem C2_counterexample :
    wfSteps (initRelay 0) c2trace = true ∧
    1 ∈ (execTrace 0 c2trace).connected ∧
    (execTrace 0 c2trace).pending 1 = [] ∧
    (execTrace 0 c2trace).log =
      [⟨Player.one, 3, 0⟩, ⟨Player.two, 3, 1⟩] ∧
    (execTrace 0 c2trace).received 1 =
      [⟨Player.two, 3, 1⟩, ⟨Player.one, 3, 0⟩] ∧
    (execTrace 0 c2trace).received 1 ≠ (execTrace 0 c2trace).log := by
  decide

/-- Claim C2 (amended): for every sequence of moves accepted by the Rules
Engine and every well-formed cooperative schedule, every connection that is
still attached and whose replay has completed has received every accepted
play event exactly once — the list it received is a permutation of the
accepted move sequence, so nothing is duplicated or dropped — though the
arrival order may differ from acceptance order when a live broadcast
interleaves with that connection's replay. -/
theorem C2_amended (first : Conn) (tr : List Step) (c : Conn)
    (hwf : wfSteps (initRelay first) tr = true)
    (hc : c ∈ (execTrace first tr).connected)
    (hdone : (execTrace first tr).pending c = []) :
    List.Perm ((execTrace first tr).received c) (execTrace first tr).log := by
  have hinv := relayInv_foldl tr (initRelay first) (relayInv_init first) hwf
  have h := hinv.2.2 c hc
  simp only [execTrace] at hdone ⊢
  rw [hdone, List.append_nil] at h
  exact h

/-- Witness for the amended C2 at the concrete schedule `c2trace`. -/
theorem C2_amended_witness :
    wfSteps (initRelay 0) c2trace = true ∧
    1 ∈ (execTrace 0 c2trace).connected ∧
    (execTrace 0 c2trace).pending 1 = [] ∧
    List.Perm ((execTrace 0 c2trace).received 1) (execTrace 0 c2trace).log :=
  ⟨by decide, by decide, by decide,
   C2_amended 0 c2trace 1 (by decide) (by decide) (by decide)⟩

/-- Claim C3: for every move rejected by the Rules Engine as illegal, the
`play` loop sends one `error` event to the submitting connection only, the
game state (hence the Move Log) is left unchanged, nothing is broadcast, and
the loop continues so further moves can be submitted. -/
theorem C3_illegal_move_local_error
    (rules : Game → Player → Nat → Except String (Nat × Game))
    (g : Game) (p : Player) (connected : List Conn) (ws : Conn)
    (col : Nat) (e : String)
    (h : rules g p col = Except.error e) :
    playStep rules g p connected ws (RawMsg.msg ⟨"play", none, none, some col⟩) =
      (g, [(ws, Event.error e)], LoopCtl.cont) := by
  simp [playStep, h]

/-- Witness for C3: on a fresh game the spec-modelled rules engine rejects a
move by the second player (it is the first player's turn), and the loop step
reports it to the submitter only without touching anything. -/
theorem C3_witness :
    Connect4.play (fun _ => none) Connect4.new Player.two 3 =
      Except.error "It is not your turn." ∧
    playStep (Connect4.play (fun _ => none)) Connect4.new Player.two [0, 7] 7
        (RawMsg.msg ⟨"play", none, none, some 3⟩) =
      (Connect4.new, [(7, Event.error "It is not your turn.")], LoopCtl.cont) :=
  ⟨rfl,
   C3_illegal_move_local_error (Connect4.play (fun _ => none)) Connect4.new
     Player.two [0, 7] 7 3 "It is not your turn." rfl⟩

/-- Claim C4: for every move accepted by the Rules Engine, the loop step
broadcasts a `play` event carrying `(player, column, row)` to every currently
connected member, followed — exactly when the Rules Engine now reports a
winner — by a broadcast of a `win` event naming the submitting player; the
`play` broadcast precedes the `win` broadcast in the delivery sequence. -/
theorem C4_accepted_move_broadcasts
    (rules : Game → Player → Nat → Except String (Nat × Game))
    (g : Game) (p : Player) (connected : List Conn) (ws : Conn)
    (col row : Nat) (g2 : Game)
    (h : rules g p col = Except.ok (row, g2)) :
    playStep rules g p connected ws (RawMsg.msg ⟨"play", none, none, some col⟩) =
      (g2,
       broadcast connected (Event.play p col row) ++
         (if g2.winner.isSome then broadcast connected (Event.win p) else []),
       LoopCtl.cont) := by
  simp [playStep, h]

/-- Witness for C4, exercising the winning branch: with a `winCheck` that
declares the mover the winner after one move, the accepted move produces the
`play` broadcast to both members followed by the `win` broadcast. -/
theorem C4_witness :
    Connect4.play (fun ms => if ms.length = 1 then some Player.one else none)
        Connect4.new Player.one 3 =
      Except.ok (0, ⟨[⟨Player.one, 3, 0⟩], some Player.one⟩) ∧
    playStep
        (Connect4.play (fun ms => if ms.length = 1 then some Player.one else none))
        Connect4.new Player.one [0, 7] 7
        (RawMsg.msg ⟨"play", none, none, some 3⟩) =
      (⟨[⟨Player.one, 3, 0⟩], some Player.one⟩,
       broadcast [0, 7] (Event.play Player.one 3 0) ++
         (if (Game.mk [⟨Player.one, 3, 0⟩] (some Player.one)).winner.isSome then
            broadcast [0, 7] (Event.win Player.one) else []),
       LoopCtl.cont) :=
  ⟨rfl,
   C4_accepted_move_broadcasts
     (Connect4.play (fun ms => if ms.length = 1 then some Player.one else none))
     Connect4.new Player.one [0, 7] 7 3 0
     ⟨[⟨Player.one, 3, 0⟩], some Player.one⟩ rfl⟩

/-- Claim C5: a join or watch attempt whose token is absent from its
namespace sends the requester exactly one `error` event with message
"Game not found.", the handler returns with no role entered, and the
registry — in particular every connection set — is left untouched. -/
theorem C5_unknown_token_error (r : Registry) (ws : Conn) (key : String) :
    (alookup r.join key = none →
      joinAttempt r ws key = (r, [(ws, Event.error "Game not found.")], none)) ∧
    (alookup r.watch key = none →
      watchAttempt r ws key = (r, [(ws, Event.error "Game not found.")], none)) := by
  constructor
  · intro h
    simp [joinAttempt, h]
  · intro h
    simp [watchAttempt, h]

/-- Witness for C5 on the demonstration registry and a stale token. -/
theorem C5_witness :
    alookup demoReg.join "nope" = none ∧
    joinAttempt demoReg 7 "nope" =
      (demoReg, [(7, Event.error "Game not found.")], none) ∧
    alookup demoReg.watch "nope" = none ∧
    watchAttempt demoReg 7 "nope" =
      (demoReg, [(7, Event.error "Game not found.")], none) :=
  ⟨by decide, (C5_unknown_token_error demoReg 7 "nope").1 (by decide),
   by decide, (C5_unknown_token_error demoReg 7 "nope").2 (by decide)⟩

/-- Claim C6: a successful join or watch attach adds the connection to the
session's connection set and replays the full Move Log snapshot to that
connection alone — one `play` event per logged move, in log order, every
delivery addressed to the attaching connection — before the handler begins
any live processing for that connection (the replay deliveries are produced
by the attach phase itself, ahead of the second player's move loop or the
observer's wait for close). -/
theorem C6_attach_then_replay (r : Registry) (ws : Conn) (key : String)
    (sid : SessId) (sess : Session) :
    (alookup r.join key = some sid → alookup r.sessions sid = some sess →
      joinAttempt r ws key =
        (attachConn r sid sess ws, replayEvents ws sess.game.moves,
         some (sid, Player.two)) ∧
      ws ∈ connectedOf (joinAttempt r ws key).1 sid) ∧
    (alookup r.watch key = some sid → alookup r.sessions sid = some sess →
      watchAttempt r ws key =
        (attachConn r sid sess ws, replayEvents ws sess.game.moves,
         some sid) ∧
      ws ∈ connectedOf (watchAttempt r ws key).1 sid) ∧
    replayEvents ws sess.game.moves =
      sess.game.moves.map (fun m => (ws, Event.play m.player m.column m.row)) := by
  refine ⟨?_, ?_, rfl⟩
  · intro h1 h2
    have heq : joinAttempt r ws key =
        (attachConn r sid sess ws, replayEvents ws sess.game.moves,
         some (sid, Player.two)) := by
      simp [joinAttempt, h1, h2]
    refine ⟨heq, ?_⟩
    rw [heq]
    show ws ∈ connectedOf (attachConn r sid sess ws) sid
    rw [connectedOf_attachConn r sid sess ws h2]
    exact mem_addConn.mpr (Or.inr rfl)
  · intro h1 h2
    have heq : watchAttempt r ws key =
        (attachConn r sid sess ws, replayEvents ws sess.game.moves,
         some sid) := by
      simp [watchAttempt, h1, h2]
    refine ⟨heq, ?_⟩
    rw [heq]
    show ws ∈ connectedOf (attachConn r sid sess ws) sid
    rw [connectedOf_attachConn r sid sess ws h2]
    exact mem_addConn.mpr (Or.inr rfl)

/-- Witness for C6 on the demonstration registry, whose session already holds
one logged move, for a joiner and a watcher. -/
theorem C6_witness :
    alookup demoReg.join "J1" = some 0 ∧
    alookup demoReg.watch "W1" = some 0 ∧
    alookup demoReg.sessions 0 = some demoSess ∧
    (joinAttempt demoReg 7 "J1" =
      (attachConn demoReg 0 demoSess 7, replayEvents 7 demoSess.game.moves,
       some (0, Player.two)) ∧
     7 ∈ connectedOf (joinAttempt demoReg 7 "J1").1 0) ∧
    (watchAttempt demoReg 8 "W1" =
      (attachConn demoReg 0 demoSess 8, replayEvents 8 demoSess.game.moves,
       some 0) ∧
     8 ∈ connectedOf (watchAttempt demoReg 8 "W1").1 0) ∧
    replayEvents 7 demoSess.game.moves = [(7, Event.play Player.one 3 0)] :=
  ⟨by decide, by decide, by decide,
   (C6_attach_then_replay demoReg 7 "J1" 0 demoSess).1 (by decide) (by decide),
   (C6_attach_then_replay demoReg 8 "W1" 0 demoSess).2.1 (by decide) (by decide),
   by decide⟩

/-- Claim C7: starting a game mints exactly one join token and one watch
token — each drawn by `secrets.token_urlsafe(12)`, that is, from 12 random
bytes, at least 96 bits of entropy — registers exactly one new entry in each
namespace, both resolving to the new session, and sends a single `init`
event carrying both tokens to the starting connection only, while the new
game's Move Log is still empty (no move of the game has been processed). -/
theorem C7_start_mints_and_inits (r : Registry) (ws : Conn) (sid : SessId)
    (jk wk : String) :
    96 ≤ tokenEntropyBits ∧
    (startSetup r ws sid jk wk).1.join = (jk, sid) :: r.join ∧
    (startSetup r ws sid jk wk).1.watch = (wk, sid) :: r.watch ∧
    resolveJoin (startSetup r ws sid jk wk).1 jk = some ⟨Connect4.new, [ws]⟩ ∧
    resolveWatch (startSetup r ws sid jk wk).1 wk = some ⟨Connect4.new, [ws]⟩ ∧
    (startSetup r ws sid jk wk).2 = [(ws, Event.init jk wk)] ∧
    Connect4.new.moves = [] := by
  refine ⟨by decide, rfl, rfl, ?_, ?_, rfl, rfl⟩
  · simp [resolveJoin, startSetup, alookup]
  · simp [resolveWatch, startSetup, alookup]

/-- Claim C8: a malformed frame or a wrongly tagged message is fatal to the
offending connection only: the opening dispatch raises on anything not
tagged `init` and the move loop raises on anything not tagged `play`, in
every case sending and broadcasting nothing and leaving the game state
untouched (registry effects are limited to the normal close-path cleanup of
whatever role the connection had reached). -/
theorem C8_protocol_violation_fatal (m m2 : InMsg)
    (rules : Game → Player → Nat → Except String (Nat × Game))
    (g : Game) (p : Player) (connected : List Conn) (ws : Conn) :
    (m.tag ≠ "init" →
      handlerDispatch (RawMsg.msg m) = (DispatchResult.raised, [])) ∧
    handlerDispatch RawMsg.malformed = (DispatchResult.raised, []) ∧
    (m2.tag ≠ "play" →
      playStep rules g p connected ws (RawMsg.msg m2) = (g, [], LoopCtl.raised)) ∧
    playStep rules g p connected ws RawMsg.malformed = (g, [], LoopCtl.raised) := by
  refine ⟨?_, rfl, ?_, rfl⟩
  · intro h
    simp [handlerDispatch, h]
  · intro h
    simp [playStep, h]

/-- Witness for C8: a `play`-tagged opening message and an `init`-tagged
in-game message both raise with no deliveries. -/
theorem C8_witness :
    (InMsg.mk "play" none none (some 3)).tag ≠ "init" ∧
    (InMsg.mk "init" none none none).tag ≠ "play" ∧
    handlerDispatch (RawMsg.msg ⟨"play", none, none, some 3⟩) =
      (DispatchResult.raised, []) ∧
    playStep (Connect4.play (fun _ => none)) Connect4.new Player.one [0] 0
      (RawMsg.msg ⟨"init", none, none, none⟩) = (Connect4.new, [], LoopCtl.raised) :=
  ⟨by decide, by decide,
   (C8_protocol_violation_fatal ⟨"play", none, none, some 3⟩ ⟨"init", none, none, none⟩
     (Connect4.play (fun _ => none)) Connect4.new Player.one [0] 0).1 (by decide),
   (C8_protocol_violation_fatal ⟨"play", none, none, some 3⟩ ⟨"init", none, none, none⟩
     (Connect4.play (fun _ => none)) Connect4.new Player.one [0] 0).2.2.1 (by decide)⟩

/-- Claim C9: the join path never limits the second-player role to one
connection: while the join token is registered, every connection presenting
it is attached to the connection set and enters the move loop as `PLAYER2`,
so two (and by iteration any number of) connections can simultaneously act
as the second player of the same session. -/
theorem C9_join_unbounded (r : Registry) (key : String) (sid : SessId)
    (sess : Session) (ws1 ws2 : Conn)
    (h1 : alookup r.join key = some sid)
    (h2 : alookup r.sessions sid = some sess) :
    (joinAttempt r ws1 key).2.2 = some (sid, Player.two) ∧
    ws1 ∈ connectedOf (joinAttempt r ws1 key).1 sid ∧
    (joinAttempt (joinAttempt r ws1 key).1 ws2 key).2.2 = some (sid, Player.two) ∧
    ws1 ∈ connectedOf (joinAttempt (joinAttempt r ws1 key).1 ws2 key).1 sid ∧
    ws2 ∈ connectedOf (joinAttempt (joinAttempt r ws1 key).1 ws2 key).1 sid := by
  have e1 : joinAttempt r ws1 key =
      (attachConn r sid sess ws1, replayEvents ws1 sess.game.moves,
       some (sid, Player.two)) := by
    simp [joinAttempt, h1, h2]
  have h1b : alookup (attachConn r sid sess ws1).join key = some sid := h1
  have h2b : alookup (attachConn r sid sess ws1).sessions sid =
      some ⟨sess.game, addConn sess.connected ws1⟩ := by
    show alookup (setSession r.sessions sid _) sid = _
    rw [alookup_setSession, h2]
    rfl
  have e2 : joinAttempt (joinAttempt r ws1 key).1 ws2 key =
      (attachConn (attachConn r sid sess ws1) sid
         ⟨sess.game, addConn sess.connected ws1⟩ ws2,
       replayEvents ws2 sess.game.moves,
       some (sid, Player.two)) := by
    rw [e1]
    show joinAttempt (attachConn r sid sess ws1) ws2 key = _
    simp [joinAttempt, h1b, h2b]
  have hc2 : connectedOf (attachConn (attachConn r sid sess ws1) sid
      ⟨sess.game, addConn sess.connected ws1⟩ ws2) sid =
      addConn (addConn sess.connected ws1) ws2 := by
    rw [connectedOf_attachConn _ _ _ _ h2b]
  refine ⟨by rw [e1], ?_, by rw [e2], ?_, ?_⟩
  · rw [e1]
    show ws1 ∈ connectedOf (attachConn r sid sess ws1) sid
    rw [connectedOf_attachConn r sid sess ws1 h2]
    exact mem_addConn.mpr (Or.inr rfl)
  · rw [e2]
    show ws1 ∈ connectedOf (attachConn (attachConn r sid sess ws1) sid
      ⟨sess.game, addConn sess.connected ws1⟩ ws2) sid
    rw [hc2]
    exact mem_addConn.mpr (Or.inl (mem_addConn.mpr (Or.inr rfl)))
  · rw [e2]
    show ws2 ∈ connectedOf (attachConn (attachConn r sid sess ws1) sid
      ⟨sess.game, addConn sess.connected ws1⟩ ws2) sid
    rw [hc2]
    exact mem_addConn.mpr (Or.inr rfl)

/-- Witness for C9 on the demonstration registry: connections `7` and `8`
both join with `J1` and both end up attached as `PLAYER2`. -/
theorem C9_witness :
    alookup demoReg.join "J1" = some 0 ∧
    alookup demoReg.sessions 0 = some demoSess ∧
    ((joinAttempt demoReg 7 "J1").2.2 = some (0, Player.two) ∧
     7 ∈ connectedOf (joinAttempt demoReg 7 "J1").1 0 ∧
     (joinAttempt (joinAttempt demoReg 7 "J1").1 8 "J1").2.2 = some (0, Player.two) ∧
     7 ∈ connectedOf (joinAttempt (joinAttempt demoReg 7 "J1").1 8 "J1").1 0 ∧
     8 ∈ connectedOf (joinAttempt (joinAttempt demoReg 7 "J1").1 8 "J1").1 0) :=
  ⟨by decide, by decide,
   C9_join_unbounded demoReg "J1" 0 demoSess 7 8 (by decide) (by decide)⟩

/-- Claim C10: the first player's close-path cleanup removes only the
join-token registry entry — the watch namespace and the session store (hence
every connection set, including the first player's own closed handle, which
later broadcasts still iterate over) are untouched — whereas the join and
watch handlers' cleanup removes exactly their own connection from the
session's connection set. -/
theorem C10_cleanup_asymmetry (r : Registry) (ws : Conn) (sid : SessId)
    (jk wk : String) :
    (startCleanup r jk).watch = r.watch ∧
    (startCleanup r jk).sessions = r.sessions ∧
    alookup (startCleanup r jk).join jk = none ∧
    ws ∈ connectedOf (startCleanup (startSetup r ws sid jk wk).1 jk) sid ∧
    connectedOf (connCleanup r sid ws) sid = (connectedOf r sid).erase ws := by
  refine ⟨rfl, rfl, alookup_eraseKey r.join jk, ?_, ?_⟩
  · simp [connectedOf, startCleanup, startSetup, alookup]
  · rcases h : alookup r.sessions sid with _ | sess
    · simp [connCleanup, connectedOf, h]
    · simp [connCleanup, connectedOf, h, alookup_setSession]

end App
